import Mathlib

/-!
Shallow embedding of the identity-resolution core of `nose/util.py`
(split_test_name, test_address, getpackage, getfilename, resolve_name,
file_like, ispackage, src) together with the POSIX path-string helpers
they call (os.path.split, os.path.splitext, os.path.join, os.path.normpath,
os.path.abspath).  Python strings are modelled as Lean strings (lists of
characters); the filesystem and the import system are explicit oracles
passed to every function that consults them.
-/

namespace Nose

/-- Does the character list contain the character?  Models Python `c in s`. -/
def hasChar (c : Char) : List Char → Bool
  | [] => false
  | x :: xs => if x = c then true else hasChar c xs

/-- Index of the last occurrence of a character, if any.
Models Python `s.rfind(c)` (which returns -1 when absent: here `none`). -/
def rfindIdx (c : Char) : List Char → Option Nat
  | [] => none
  | x :: xs =>
    match rfindIdx c xs with
    | some k => some (k + 1)
    | none => if x = c then some 0 else none

/-- Remove all trailing occurrences of a character.  Models Python `s.rstrip(c)`. -/
def rstrip (c : Char) (l : List Char) : List Char :=
  (l.reverse.dropWhile (fun x => x = c)).reverse

/-- Is `needle` an initial segment of `hay`? -/
def startsWithL : List Char → List Char → Bool
  | [], _ => true
  | _ :: _, [] => false
  | a :: as, b :: bs => if a = b then startsWithL as bs else false

/-- Does `hay` contain `needle` as a contiguous substring?
Models Python `needle in hay`. -/
def listSub (needle : List Char) : List Char → Bool
  | [] => decide (needle = [])
  | x :: xs => startsWithL needle (x :: xs) || listSub needle xs

/-- Split a character list at every occurrence of the separator.
Models Python `s.split(c)` (so `"".split(c) == ['']`). -/
def splitOnChar (c : Char) : List Char → List (List Char)
  | [] => [[]]
  | x :: xs =>
    match splitOnChar c xs with
    | [] => [[]]
    | y :: ys => if x = c then [] :: y :: ys else (x :: y) :: ys

/-- Join strings with a separator string.  Models Python `sep.join(list)`. -/
def joinWith (sep : String) : List String → String
  | [] => ""
  | [x] => x
  | x :: y :: rest => x ++ sep ++ joinWith sep (y :: rest)

/-- Join character lists with a separator character (`'/'.join` in normpath). -/
def joinCharSep (c : Char) : List (List Char) → List Char
  | [] => []
  | [x] => x
  | x :: y :: rest => x ++ c :: joinCharSep c (y :: rest)

/-- Position one past the last occurrence of a character (0 when absent).
This is Python `s.rfind(c) + 1`, so that the -1-based index arithmetic of
posixpath can be written on naturals. -/
def rfindP (c : Char) (l : List Char) : Nat :=
  match rfindIdx c l with
  | none => 0
  | some k => k + 1

/-- Cut a character list at position `i` as posixpath.split does: the head
loses its trailing slashes unless it is empty or all slashes. -/
def splitAtP (l : List Char) (i : Nat) : List Char × List Char :=
  if l.take i ≠ [] ∧ (l.take i).any (fun c => c ≠ '/') then
    (rstrip '/' (l.take i), l.drop i)
  else (l.take i, l.drop i)

/-- `os.path.split` for POSIX: split at `rfind('/') + 1`; the head keeps a
run of leading slashes but otherwise loses trailing slashes. -/
def ospathSplit (p : String) : String × String :=
  (String.mk (splitAtP p.data (rfindP '/' p.data)).1,
   String.mk (splitAtP p.data (rfindP '/' p.data)).2)

/-- `os.path.splitext` on a character list: split off the extension at the
last dot of the final component, treating leading dots of that component
as part of the root (so `".bashrc"` has no extension).  In posixpath terms
`rfindP c l = rfind(c) + 1`, so `sepIndex < dotIndex` is
`rfindP '/' l < rfindP '.' l`, `filenameIndex = sepIndex + 1 = rfindP '/' l`,
and `dotIndex = rfindP '.' l - 1`; the while loop that looks for a
non-dot character in `[filenameIndex, dotIndex)` is the `any` below. -/
def splitextL (l : List Char) : List Char × List Char :=
  if rfindP '/' l < rfindP '.' l then
    if ((l.drop (rfindP '/' l)).take (rfindP '.' l - 1 - rfindP '/' l)).any
        (fun c => c ≠ '.') then
      (l.take (rfindP '.' l - 1), l.drop (rfindP '.' l - 1))
    else (l, [])
  else (l, [])

/-- `os.path.splitext` on strings. -/
def splitext (s : String) : String × String :=
  let be := splitextL s.data
  (String.mk be.1, String.mk be.2)

/-- Does the string end with the given suffix?  Models Python `s.endswith(t)`. -/
def pyEndsWith (s t : String) : Bool :=
  t.data.isSuffixOf s.data

/-- `os.path.isabs` for POSIX: does the path start with '/'? -/
def isAbs (p : String) : Bool :=
  startsWithL ['/'] p.data

/-- Two-argument `os.path.join` for POSIX. -/
def pjoin (a b : String) : String :=
  if startsWithL ['/'] b.data then b
  else if a = "" ∨ a.data.getLast? = some '/' then a ++ b
  else a ++ "/" ++ b

/-- `os.path.normpath` for POSIX, translated from posixpath.normpath:
collapse repeated separators and '.' components, resolve '..' where
possible, keep a double (but not triple) leading slash. -/
def normpath (p : String) : String :=
  if p = "" then "."
  else
    let l := p.data
    let initialSlashes : Nat :=
      if startsWithL ['/'] l then
        (if startsWithL ['/', '/'] l ∧ ¬ startsWithL ['/', '/', '/'] l then 2 else 1)
      else 0
    let comps := splitOnChar '/' l
    let newComps := comps.foldl
      (fun (acc : List (List Char)) (comp : List Char) =>
        if comp = [] ∨ comp = ['.'] then acc
        else if comp ≠ ['.', '.'] ∨ (initialSlashes = 0 ∧ acc = [])
                ∨ (acc ≠ [] ∧ acc.getLast? = some ['.', '.']) then
          acc ++ [comp]
        else if acc ≠ [] then acc.dropLast
        else acc) []
    let joined := List.replicate initialSlashes '/' ++ joinCharSep '/' newComps
    if joined = [] then "." else String.mk joined

/-- One character of the identifier pattern head `[A-Za-z_]`. -/
def identHeadChar (c : Char) : Bool :=
  (decide ('A' ≤ c) && decide (c ≤ 'Z')) || (decide ('a' ≤ c) && decide (c ≤ 'z'))
    || decide (c = '_')

/-- One character of the identifier pattern tail `[A-Za-z0-9_.]`. -/
def identTailChar (c : Char) : Bool :=
  identHeadChar c || (decide ('0' ≤ c) && decide (c ≤ '9')) || decide (c = '.')

/-- Full match of the raw pattern `[A-Za-z_][A-Za-z0-9_.]*` against a
character list. -/
def identOk : List Char → Bool
  | [] => false
  | c :: cs => identHeadChar c && cs.all identTailChar

/-- `ident_re.match(s)` as a Boolean: the pattern `^[A-Za-z_][A-Za-z0-9_.]*$`
matched with Python `re` semantics, where `$` also matches just before a
single trailing newline. -/
def identMatch (s : String) : Bool :=
  let t := if s.data.getLast? = some '\n' then s.data.dropLast else s.data
  identOk t

/-- Filesystem oracle: working directory plus the existence checks and the
directory listing that the source consults (`os.getcwd`, `os.path.exists`,
`os.path.isfile`, `os.path.isdir`, `os.listdir`). -/
structure FS where
  cwd : String
  pathExists : String → Bool
  isFile : String → Bool
  isDir : String → Bool
  listdir : String → List String

/-- `src(filename)` on a string: map a `.pyc`/`.pyo`/`.py` name to the
`.py` source name, otherwise return the name unchanged. -/
def srcStr (filename : String) : String :=
  let be := splitextL filename.data
  if be.2 = ".pyc".data ∨ be.2 = ".pyo".data ∨ be.2 = ".py".data then
    -- '.'.join((base, 'py'))
    String.mk (be.1 ++ ".py".data)
  else filename

/-- `src(filename)` including the `None` passthrough. -/
def src : Option String → Option String
  | none => none
  | some f => some (srcStr f)

/-- `file_like(name)`: exists on disk, or has a directory part, or ends in
`.py`, or `os.path.splitext(name)[0]` is not matched by `ident_re`. -/
def file_like (fs : FS) (name : String) : Bool :=
  fs.pathExists name
    || decide ((ospathSplit name).1 ≠ "")  -- truthiness of os.path.dirname(name)
    || pyEndsWith name ".py"
    || !(identMatch (splitext name).1)

/-- `ispackage(path)`: a directory directly containing a file whose
source-name is `__init__.py`. -/
def ispackage (fs : FS) (path : String) : Bool :=
  if fs.isDir path then
    ((fs.listdir path).filter
      (fun e => fs.isFile (pjoin path e) && decide (srcStr e = "__init__.py"))) ≠ []
  else false

/-- `getfilename(package, relativeTo)`: join the base directory with the
slash-joined components of the dotted name and try the suffixes
`/__init__.py` then `.py`, returning the first that exists. -/
def getfilename (fs : FS) (package : String) (relativeTo : Option String) : Option String :=
  let rel := match relativeTo with | none => fs.cwd | some r => r
  let path := pjoin rel (joinWith "/" ((splitOnChar '.' package.data).map String.mk))
  let c1 := path ++ "/__init__.py"
  if fs.pathExists c1 then some c1
  else
    let c2 := path ++ ".py"
    if fs.pathExists c2 then some c2 else none

/-- The upward walk of `getpackage`: while the current component is
non-empty and `join(path, part)` is a package directory, record the
component and split the remaining path again.  The fuel argument only
bounds the loop; `getpackage` passes more fuel than the loop can consume,
since the retained path strictly shrinks at every continued step. -/
def walkUp (fs : FS) : Nat → String → String → List String
  | 0, _, _ => []
  | fuel + 1, path, part =>
    if part = "" then []
    else if ispackage fs (pjoin path part) then
      part :: walkUp fs fuel (ospathSplit path).1 (ospathSplit path).2
    else []

/-- `getpackage(filename)`: dotted package name of a python source file,
`none` when the source-name neither ends in `.py` nor is a package
directory. -/
def getpackage (fs : FS) (filename : String) : Option String :=
  let src_file := srcStr filename
  if !(pyEndsWith src_file ".py") && !(ispackage fs src_file) then none
  else
    let base := (splitext (ospathSplit src_file).2).1
    let modParts0 : List String := if base = "__init__" then [] else [base]
    let pp := ospathSplit (ospathSplit src_file).1
    let walked := walkUp fs (src_file.data.length + 2) pp.1 pp.2
    some (joinWith "." ((modParts0 ++ walked).reverse))

/-- Failures of `split_test_name`: the explicitly raised ValueError with its
message, and the uncaught ValueError from unpacking `tail.split(':')` when
the tail holds more than one colon. -/
inductive SplitErr where
  | raisedValueError (msg : String)
  | unpackValueError
  deriving DecidableEq

/-- The literal message of the explicit `raise ValueError(...)` in
`split_test_name`; the source never applies `%` to it, so the `%s`
placeholder stays in the text. -/
def malformedMsg : String :=
  "Test name '%s' could not be parsed. Please format test names as path:callable or module:callable."

/-- The common final block of `split_test_name`: classify `file_or_mod`
with `file_like` and build the triple. -/
def finishSplit (fs : FS) (file_or_mod : String) (fn : Option String) :
    Except SplitErr (Option String × Option String × Option String) :=
  if file_or_mod ≠ "" then
    if file_like fs file_or_mod then Except.ok (some (normpath file_or_mod), none, fn)
    else Except.ok (none, some file_or_mod, fn)
  else Except.ok (none, none, fn)

/-- `split_test_name(test)`: split a specifier into (file, module, callable). -/
def split_test_name (fs : FS) (test : String) :
    Except SplitErr (Option String × Option String × Option String) :=
  if hasChar ':' test.data then
    let ht := ospathSplit test
    if ht.1 = "" then
      -- 'foo:bar' case: no path separator before the colon region
      match (splitOnChar ':' test.data).map String.mk with
      | [a, b] =>
        if file_like fs b then finishSplit fs test none
        else finishSplit fs a (some b)
      | parts =>
        -- more than one colon: the two-element unpack raised ValueError
        if (parts.headD "").data.length = 1 then
          finishSplit fs (joinWith ":" parts.dropLast) (some (parts.getLastD ""))
        else Except.error (SplitErr.raisedValueError malformedMsg)
    else if ht.2 = "" then
      -- 'foo:bar/' case: the colon is part of the path
      finishSplit fs test none
    else
      if hasChar ':' ht.2.data then
        match (splitOnChar ':' ht.2.data).map String.mk with
        | [fp, fn] => finishSplit fs (joinWith "/" [ht.1, fp]) (some fn)
        | _ => Except.error SplitErr.unpackValueError
      else finishSplit fs (joinWith "/" [ht.1, ht.2]) none
  else
    -- only a file or mod part
    if file_like fs test then Except.ok (some (normpath test), none, none)
    else Except.ok (none, some test, none)

/-- `os.path.abspath` for POSIX. -/
def abspath (cwd p : String) : String :=
  if isAbs p then normpath p else normpath (pjoin cwd p)

/-- Runtime entities that `test_address` dispatches on, one constructor per
shape the source distinguishes.  Attribute reads done with
`getattr(x, a, None)` appear as `Option` fields. -/
inductive PyEntity where
  | withAddress (addr : Option String × Option String × Option String)
  | module (file : Option String) (name : Option String)
  | function (module_ : Option String) (name : Option String)
  | cls (module_ : Option String) (name : Option String)
  | instanceOf (classOf : PyEntity)
  | method (imClass : PyEntity) (name : String)
  | functionTestCase (testFunc : PyEntity)
  | testCase (classOf : PyEntity) (methodName : String)
  | other (typeName : String)
  deriving DecidableEq

/-- Failures of `test_address`: the unguarded `sys.modules[module]` lookup
(KeyError) and the final `raise TypeError` for unrecognized shapes. -/
inductive AddrErr where
  | keyError (name : String)
  | typeError (typeName : String)
  deriving DecidableEq

/-- Python `"%s.%s" % (a, b)` where `a` may be `None` (printed as `None`). -/
def pyFormat2 (a : Option String) (b : String) : String :=
  (match a with | none => "None" | some s => s) ++ "." ++ b

/-- The function-or-class branch of `test_address`: look the declared
module up in `sys.modules` (unguarded), absolutize its `__file__`, and use
`__name__` as the callable. -/
def funcOrClassAddress (cwd : String) (reg : String → Option (Option String))
    (module_ : Option String) (name : Option String) :
    Except AddrErr (Option String × Option String × Option String) :=
  match module_ with
  | none => Except.ok (none, none, name)
  | some m =>
    match reg m with
    | none => Except.error (AddrErr.keyError m)
    | some fileOpt =>
      Except.ok (fileOpt.map (fun f => abspath cwd f), some m, name)

/-- `test_address(test)`: the polymorphic address computation, with
`reg : name -> __file__` standing for `sys.modules` (`none` means the name
is absent and the lookup raises KeyError). -/
def test_address (cwd : String) (reg : String → Option (Option String)) :
    PyEntity → Except AddrErr (Option String × Option String × Option String)
  | PyEntity.withAddress a => Except.ok a
  | PyEntity.module file name => Except.ok (file, name, none)
  | PyEntity.function m n => funcOrClassAddress cwd reg m n
  | PyEntity.cls m n => funcOrClassAddress cwd reg m n
  | PyEntity.instanceOf c => test_address cwd reg c
  | PyEntity.method c name =>
    match test_address cwd reg c with
    | Except.error e => Except.error e
    | Except.ok ca => Except.ok (ca.1, ca.2.1, some (pyFormat2 ca.2.2 name))
  | PyEntity.functionTestCase f => test_address cwd reg f
  | PyEntity.testCase c methodName =>
    match test_address cwd reg c with
    | Except.error e => Except.error e
    | Except.ok ca => Except.ok (ca.1, ca.2.1, some (pyFormat2 ca.2.2 methodName))
  | PyEntity.other typeName => Except.error (AddrErr.typeError typeName)

/-- Does the address triple have at least one non-None field? -/
def someField (r : Option String × Option String × Option String) : Bool :=
  r.1.isSome || r.2.1.isSome || r.2.2.isSome

/-- Entities all of whose module / function / class nodes carry at least one
identifying attribute, and whose self-described addresses are non-empty. -/
def addrOk : PyEntity → Bool
  | PyEntity.withAddress a => someField a
  | PyEntity.module f n => f.isSome || n.isSome
  | PyEntity.function m n => m.isSome || n.isSome
  | PyEntity.cls m n => m.isSome || n.isSome
  | PyEntity.instanceOf c => addrOk c
  | PyEntity.method _ _ => true
  | PyEntity.functionTestCase f => addrOk f
  | PyEntity.testCase _ _ => true
  | PyEntity.other _ => true

/-- Python attribute-bearing objects: a finite attribute table. -/
inductive Obj where
  | mk (attrs : List (String × Obj))

/-- `getattr(obj, name)` as a lookup, `none` meaning AttributeError. -/
def getattrObj : Obj → String → Option Obj
  | Obj.mk attrs, name => lookupAttr attrs name
where
  lookupAttr : List (String × Obj) → String → Option Obj
    | [], _ => none
    | (k, v) :: rest, name => if k = name then some v else lookupAttr rest name

/-- Failures of `resolve_name`: the re-raised ImportError when no prefix
imports, and the AttributeError raised by `getattr` which carries the
failing attribute name only. -/
inductive RErr where
  | importError
  | attributeError (attr : String)
  deriving DecidableEq

/-- The attribute walk of `resolve_name`: `for part in parts: obj = getattr(obj, part)`. -/
def walkAttrs : Obj → List String → Except RErr Obj
  | obj, [] => Except.ok obj
  | obj, p :: ps =>
    match getattrObj obj p with
    | some o => walkAttrs o ps
    | none => Except.error (RErr.attributeError p)

/-- The import loop of `resolve_name`, on the reversed component list so
that dropping the last dotted component is structural: try
`__import__('.'.join(parts_copy))`, and on ImportError retry without the
last component, re-raising when none remain. -/
def importLoopRev (imp : String → Option Obj) : List String → Except RErr Obj
  | [] => Except.error RErr.importError
  | x :: rest =>
    match imp (joinWith "." ((x :: rest).reverse)) with
    | some m => Except.ok m
    | none => importLoopRev imp rest

/-- `resolve_name(name, module)`: import the longest importable prefix of
the dotted name (the oracle `imp` returns what `__import__` returns, i.e.
the top-level module), then walk `parts[1:]` as attribute lookups; when a
module is supplied, walk every component off it. -/
def resolve_name (imp : String → Option Obj) (name : String) (module : Option Obj) :
    Except RErr Obj :=
  let parts := (splitOnChar '.' name.data).map String.mk
  match module with
  | some m => walkAttrs m parts
  | none =>
    match importLoopRev imp parts.reverse with
    | Except.error e => Except.error e
    | Except.ok m => walkAttrs m (parts.drop 1)

/-- Modelled from the spec: the `looksLikePath` predicate as the spec words
it, with the bare-identifier test applied to the name itself rather than to
`splitext(name)[0]`.  Kept only to compare against `file_like`. -/
def looksLikePathSpec (fs : FS) (name : String) : Bool :=
  fs.pathExists name
    || hasChar '/' name.data
    || pyEndsWith name ".py"
    || !(identOk name.data)

/-- A filesystem with nothing on it. -/
def fsEmpty : FS where
  cwd := "/"
  pathExists := fun _ => false
  isFile := fun _ => false
  isDir := fun _ => false
  listdir := fun _ => []

/-- A filesystem with package directories `pkg` and `pkg/subpkg` (both with
`__init__.py`) and a module `pkg/subpkg/mod.py`, cwd at the root. -/
def fs5 : FS where
  cwd := "/"
  pathExists := fun p => decide (p ∈ (["pkg", "pkg/subpkg", "pkg/__init__.py",
    "pkg/subpkg/__init__.py", "pkg/subpkg/mod.py"] : List String))
  isFile := fun p => decide (p ∈ (["pkg/__init__.py", "pkg/subpkg/__init__.py",
    "pkg/subpkg/mod.py"] : List String))
  isDir := fun p => decide (p ∈ (["pkg", "pkg/subpkg"] : List String))
  listdir := fun p =>
    if p = "pkg" then ["__init__.py", "subpkg"]
    else if p = "pkg/subpkg" then ["__init__.py", "mod.py"]
    else []

/-- Like `fs5`, but only `pkg/subpkg` is a package: `pkg` has no
`__init__.py`. -/
def fs6 : FS where
  cwd := "/"
  pathExists := fun p => decide (p ∈ (["pkg", "pkg/subpkg",
    "pkg/subpkg/__init__.py"] : List String))
  isFile := fun p => decide (p ∈ (["pkg/subpkg/__init__.py"] : List String))
  isDir := fun p => decide (p ∈ (["pkg", "pkg/subpkg"] : List String))
  listdir := fun p =>
    if p = "pkg" then ["subpkg"]
    else if p = "pkg/subpkg" then ["__init__.py"]
    else []

/-- A filesystem where the package `/other/pkg` lies outside the working
directory `/h`, while `/h/pkg/mod.py` exists but `/h/pkg` is not a package. -/
def fsA : FS where
  cwd := "/h"
  pathExists := fun p => decide (p ∈ (["/", "/other", "/other/pkg",
    "/other/pkg/__init__.py", "/other/pkg/mod.py", "/h", "/h/pkg",
    "/h/pkg/mod.py"] : List String))
  isFile := fun p => decide (p ∈ (["/other/pkg/__init__.py", "/other/pkg/mod.py",
    "/h/pkg/mod.py"] : List String))
  isDir := fun p => decide (p ∈ (["/", "/other", "/other/pkg", "/h",
    "/h/pkg"] : List String))
  listdir := fun p =>
    if p = "/other/pkg" then ["__init__.py", "mod.py"]
    else if p = "/other" then ["pkg"]
    else if p = "/h/pkg" then ["mod.py"]
    else if p = "/h" then ["pkg"]
    else if p = "/" then ["other", "h"]
    else []

/-- A filesystem whose working directory `/h` holds the package `pkg`
containing `mod.py`, so that path-to-module and module-to-path agree. -/
def fsB : FS where
  cwd := "/h"
  pathExists := fun p => decide (p ∈ (["/", "/h", "/h/pkg",
    "/h/pkg/__init__.py", "/h/pkg/mod.py"] : List String))
  isFile := fun p => decide (p ∈ (["/h/pkg/__init__.py", "/h/pkg/mod.py"] : List String))
  isDir := fun p => decide (p ∈ (["/", "/h", "/h/pkg"] : List String))
  listdir := fun p =>
    if p = "/h/pkg" then ["__init__.py", "mod.py"]
    else if p = "/h" then ["pkg"]
    else if p = "/" then ["h"]
    else []

/-- A top-level module object whose `mod` attribute leads to `Class` and
then `method`. -/
def objPkgFull : Obj :=
  Obj.mk [("mod", Obj.mk [("Class", Obj.mk [("method", Obj.mk [])])])]

/-- A top-level module object whose `mod` attribute has no `Class`. -/
def objPkgNoClass : Obj :=
  Obj.mk [("mod", Obj.mk [])]

/-- An import oracle on which only `pkg.mod` imports, returning the full
top-level object (as `__import__` returns the top-level package). -/
def impFull : String → Option Obj :=
  fun s => if s = "pkg.mod" then some objPkgFull else none

/-- An import oracle on which only `pkg.mod` imports, whose module lacks
the `Class` attribute. -/
def impNoClass : String → Option Obj :=
  fun s => if s = "pkg.mod" then some objPkgNoClass else none

end Nose

namespace Nose

/-- Claim C1: on a specifier with two or more colons whose first
colon-delimited segment is longer than one character and with no
path-separator head, `split_test_name` raises the ValueError carrying the
unformatted message template: the message shows the expected
`path:callable or module:callable` form, but since the source never
applies `%` to the template, the message contains the literal `%s` and not
the offending specifier. -/
theorem split_test_name_multicolon_message (fs : FS) :
    split_test_name fs "foo:bar:baz"
        = Except.error (SplitErr.raisedValueError malformedMsg)
    ∧ listSub "foo:bar:baz".data malformedMsg.data = false
    ∧ listSub "%s".data malformedMsg.data = true
    ∧ listSub "path:callable or module:callable".data malformedMsg.data = true :=
  ⟨rfl, by decide, by decide, by decide⟩

/-- Claim C2 (amended): parsing `foo/bar.py:test_func` yields the
normalized — but not absolutized — path `foo/bar.py`, no module part, and
callable `test_func`, on every filesystem. -/
theorem split_test_name_file_callable (fs : FS) :
    split_test_name fs "foo/bar.py:test_func"
      = Except.ok (some "foo/bar.py", none, some "test_func") := by
  have e0 : split_test_name fs "foo/bar.py:test_func"
      = finishSplit fs "foo/bar.py" (some "test_func") := rfl
  have hfl : file_like fs "foo/bar.py" = true := by
    unfold file_like
    rw [show (decide ((ospathSplit "foo/bar.py").1 ≠ "")) = true from rfl]
    simp
  rw [e0]
  unfold finishSplit
  rw [if_pos (by decide : ("foo/bar.py" : String) ≠ ""), if_pos hfl]
  rfl

/-- Claim C2, counterexample to the claim as stated: the file field of the
parse of `foo/bar.py:test_func` is the relative path `foo/bar.py`, not an
absolute path. -/
theorem split_test_name_file_not_abs :
    split_test_name fsEmpty "foo/bar.py:test_func"
      = Except.ok (some "foo/bar.py", none, some "test_func")
    ∧ isAbs "foo/bar.py" = false :=
  ⟨rfl, rfl⟩

/-- Claim C3 (amended): on a module entity, `test_address` returns its
`__file__` attribute exactly as stored (without absolutization), its
`__name__` attribute, and always a callable of none. -/
theorem test_address_module_fields (cwd : String)
    (reg : String → Option (Option String)) (file name : Option String) :
    test_address cwd reg (PyEntity.module file name) = Except.ok (file, name, none) :=
  rfl

/-- Claim C3, counterexample to the claim as stated: a module whose
`__file__` is the relative path `rel/p.py` keeps that relative path in the
returned address; the file field is not made absolute. -/
theorem test_address_module_not_abs :
    test_address "/h" (fun _ => none) (PyEntity.module (some "rel/p.py") (some "m"))
      = Except.ok (some "rel/p.py", some "m", none)
    ∧ isAbs "rel/p.py" = false :=
  ⟨rfl, rfl⟩

/-- Claim C9: when a function or class entity declares an owning module
that is absent from the module registry, `test_address` fails with the
registry's KeyError naming that module — not with the TypeError reserved
for unrecognized shapes. -/
theorem test_address_registry_keyerror (cwd : String)
    (reg : String → Option (Option String)) (m : String) (n : Option String)
    (h : reg m = none) :
    test_address cwd reg (PyEntity.function (some m) n)
        = Except.error (AddrErr.keyError m)
    ∧ test_address cwd reg (PyEntity.cls (some m) n)
        = Except.error (AddrErr.keyError m) := by
  constructor <;>
    · show funcOrClassAddress cwd reg (some m) n = _
      simp only [funcOrClassAddress, h]

/-- Claim C9, witness: a concrete registry with no entries sends a function
entity owned by `missing.mod` to the KeyError for that name. -/
theorem test_address_registry_keyerror_witness :
    test_address "/" (fun _ => none) (PyEntity.function (some "missing.mod") none)
      = Except.error (AddrErr.keyError "missing.mod") :=
  (test_address_registry_keyerror "/" (fun _ => none) "missing.mod" none rfl).1

/-- Claim C4 (amended): for an existing absolute path on which `getpackage`
succeeds and whose module name `getfilename` maps back to that same path,
one round trip through the two mappings is a fixed point. -/
theorem getpackage_roundtrip_fixed (fs : FS) (p m : String)
    (hex : fs.pathExists p = true) (habs : isAbs p = true)
    (h1 : getpackage fs p = some m) (h2 : getfilename fs m none = some p) :
    (getfilename fs m none).bind (fun f => getpackage fs f) = some m
    ∧ (getfilename fs m none).bind (fun f => getpackage fs f) = getpackage fs p := by
  constructor
  · rw [h2]
    exact h1
  · rw [h2]
    rfl

/-- Claim C4, witness: on `fsB` the round trip from `/h/pkg/mod.py` through
`pkg.mod` returns to the same file, so the fixed point holds. -/
theorem getpackage_roundtrip_fixed_witness :
    fsB.pathExists "/h/pkg/mod.py" = true
    ∧ (getfilename fsB "pkg.mod" none).bind (fun f => getpackage fsB f)
        = some "pkg.mod" :=
  ⟨rfl, (getpackage_roundtrip_fixed fsB "/h/pkg/mod.py" "pkg.mod" rfl rfl rfl rfl).1⟩

/-- Claim C4, counterexample to the claim as stated: `/other/pkg/mod.py` is
an existing absolute path with `getpackage` result `pkg.mod`, but
`getfilename` resolves `pkg.mod` relative to the working directory `/h`,
reaching `/h/pkg/mod.py`, whose directory is not a package — so the round
trip produces `mod`, not `pkg.mod`. -/
theorem getpackage_roundtrip_counterexample :
    fsA.pathExists "/other/pkg/mod.py" = true
    ∧ isAbs "/other/pkg/mod.py" = true
    ∧ getpackage fsA "/other/pkg/mod.py" = some "pkg.mod"
    ∧ (getfilename fsA "pkg.mod" none).bind (fun f => getpackage fsA f) = some "mod"
    ∧ ((getfilename fsA "pkg.mod" none).bind (fun f => getpackage fsA f)
        ≠ getpackage fsA "/other/pkg/mod.py") :=
  ⟨rfl, rfl, rfl, rfl, by decide⟩

/-- An index returned by `rfindIdx` lies inside the list. -/
theorem rfindIdx_lt (c : Char) (l : List Char) (k : Nat)
    (h : rfindIdx c l = some k) : k < l.length := by
  induction l generalizing k with
  | nil => simp [rfindIdx] at h
  | cons x xs ih =>
    simp only [rfindIdx] at h
    split at h
    next j heq =>
      injection h with h
      subst h
      exact Nat.succ_lt_succ (ih j heq)
    next heq =>
      split at h
      · injection h with h
        subst h
        simp
      · cases h

/-- Finding in the right part of an append shifts the index by the length
of the left part. -/
theorem rfindIdx_append_some (c : Char) (a b : List Char) (k : Nat)
    (h : rfindIdx c b = some k) :
    rfindIdx c (a ++ b) = some (a.length + k) := by
  induction a with
  | nil => simpa using h
  | cons x a ih =>
    show (match rfindIdx c (a ++ b) with
          | some j => some (j + 1)
          | none => if x = c then some 0 else none) = some ((x :: a).length + k)
    rw [ih]
    show some (a.length + k + 1) = some (a.length + 1 + k)
    exact congrArg some (by omega)

/-- When the right part of an append has no occurrence, the search falls
back to the left part unchanged. -/
theorem rfindIdx_append_none (c : Char) (a b : List Char)
    (h : rfindIdx c b = none) :
    rfindIdx c (a ++ b) = rfindIdx c a := by
  induction a with
  | nil => simpa using h
  | cons x a ih =>
    show (match rfindIdx c (a ++ b) with
          | some j => some (j + 1)
          | none => if x = c then some 0 else none) = rfindIdx c (x :: a)
    rw [ih]
    rfl

/-- A positive `rfindP` value exposes the underlying `rfindIdx` index. -/
theorem rfindP_eq_succ (c : Char) (l : List Char) (k : Nat)
    (h : rfindP c l = k + 1) : rfindIdx c l = some k := by
  unfold rfindP at h
  cases hx : rfindIdx c l with
  | none =>
    simp only [hx] at h
    exact absurd h (by omega)
  | some j =>
    simp only [hx] at h
    have hjk : j = k := by omega
    exact congrArg some hjk

/-- Truncating after the found index keeps the find result. -/
theorem rfindIdx_take_of_lt (c : Char) (l : List Char) (s d : Nat)
    (h : rfindIdx c l = some s) (hlt : s < d) :
    rfindIdx c (l.take d) = some s := by
  cases hd : rfindIdx c (l.drop d) with
  | some k =>
    have happ := rfindIdx_append_some c (l.take d) (l.drop d) k hd
    rw [List.take_append_drop, h] at happ
    injection happ with hs
    have h1 : s < l.length := rfindIdx_lt c l s h
    have h2 : (l.take d).length = min d l.length := List.length_take d l
    exact absurd rfl (by omega : ¬ s = s)
  | none =>
    have happ := rfindIdx_append_none c (l.take d) (l.drop d) hd
    rw [List.take_append_drop, h] at happ
    exact happ.symm

/-- Truncating a list with no occurrence still finds nothing. -/
theorem rfindIdx_take_of_none (c : Char) (l : List Char) (d : Nat)
    (h : rfindIdx c l = none) : rfindIdx c (l.take d) = none := by
  cases hd : rfindIdx c (l.drop d) with
  | some k =>
    have happ := rfindIdx_append_some c (l.take d) (l.drop d) k hd
    rw [List.take_append_drop, h] at happ
    cases happ
  | none =>
    have happ := rfindIdx_append_none c (l.take d) (l.drop d) hd
    rw [List.take_append_drop, h] at happ
    exact happ.symm

/-- Splitting the rebuilt `root ++ ".py"` name finds exactly the `.py`
extension again: the heart of the idempotence of `src`. -/
theorem splitextL_rebuild (l bl el : List Char)
    (h : splitextL l = (bl, el)) (hne : el ≠ []) :
    splitextL (bl ++ ".py".data) = (bl, ".py".data) := by
  unfold splitextL at h
  by_cases hgt : rfindP '/' l < rfindP '.' l
  case neg =>
    rw [if_neg hgt] at h
    injection h with h1 h2
    exact absurd h2.symm hne
  case pos =>
    rw [if_pos hgt] at h
    by_cases hscan : ((l.drop (rfindP '/' l)).take
        (rfindP '.' l - 1 - rfindP '/' l)).any (fun c => c ≠ '.') = true
    case neg =>
      rw [if_neg hscan] at h
      injection h with h1 h2
      exact absurd h2.symm hne
    case pos =>
      rw [if_pos hscan] at h
      injection h with h1 h2
      have hd : rfindIdx '.' l = some (rfindP '.' l - 1) :=
        rfindP_eq_succ '.' l _ (by omega)
      have hdl : rfindP '.' l - 1 < l.length := rfindIdx_lt '.' l _ hd
      have hbl : bl.length = rfindP '.' l - 1 := by
        rw [← h1, List.length_take]
        omega
      have hsp : rfindP '/' l ≤ bl.length := by omega
      have hsepbl : rfindIdx '/' bl = rfindIdx '/' l := by
        cases hsx : rfindIdx '/' l with
        | none => rw [← h1]; exact rfindIdx_take_of_none '/' l _ hsx
        | some s =>
          have hsP : rfindP '/' l = s + 1 := by simp [rfindP, hsx]
          rw [← h1]
          exact rfindIdx_take_of_lt '/' l s _ hsx (by omega)
      have hgdot : rfindIdx '.' (bl ++ ".py".data) = some bl.length := by
        have := rfindIdx_append_some '.' bl ".py".data 0 (by decide)
        simpa using this
      have hgdotP : rfindP '.' (bl ++ ".py".data) = bl.length + 1 := by
        simp [rfindP, hgdot]
      have hgsep : rfindIdx '/' (bl ++ ".py".data) = rfindIdx '/' l := by
        rw [rfindIdx_append_none '/' bl ".py".data (by decide), hsepbl]
      have hgsepP : rfindP '/' (bl ++ ".py".data) = rfindP '/' l := by
        unfold rfindP
        rw [hgsep]
      have hsame : (l.drop (rfindP '/' l)).take (rfindP '.' l - 1 - rfindP '/' l)
          = bl.drop (rfindP '/' l) := by
        rw [← h1, List.drop_take]
      have hdropbl : ((bl.drop (rfindP '/' l)).any (fun c => c ≠ '.')) = true := by
        rw [← hsame]
        exact hscan
      have hgdrop : (bl ++ ".py".data).drop (rfindP '/' l)
          = bl.drop (rfindP '/' l) ++ ".py".data :=
        List.drop_append_of_le_length hsp
      have htake : (bl.drop (rfindP '/' l) ++ ".py".data).take (bl.length - rfindP '/' l)
          = bl.drop (rfindP '/' l) :=
        List.take_left' (by rw [List.length_drop])
      unfold splitextL
      rw [hgdotP, hgsepP]
      rw [if_pos (by omega : rfindP '/' l < bl.length + 1)]
      rw [Nat.add_sub_cancel, hgdrop, htake]
      rw [if_pos hdropbl]
      rw [List.take_left, List.drop_left]

/-- The string-rewriting core of `src` maps its own output to itself. -/
theorem srcStr_idem (f : String) : srcStr (srcStr f) = srcStr f := by
  by_cases hext : (splitextL f.data).2 = ".pyc".data ∨ (splitextL f.data).2 = ".pyo".data
      ∨ (splitextL f.data).2 = ".py".data
  case pos =>
    have h1 : srcStr f = String.mk ((splitextL f.data).1 ++ ".py".data) := by
      unfold srcStr
      rw [if_pos hext]
    have hne : (splitextL f.data).2 ≠ [] := by
      rcases hext with h | h | h <;> rw [h] <;> decide
    have h2 : splitextL ((splitextL f.data).1 ++ ".py".data)
        = ((splitextL f.data).1, ".py".data) :=
      splitextL_rebuild f.data (splitextL f.data).1 (splitextL f.data).2 rfl hne
    rw [h1]
    unfold srcStr
    rw [show (String.mk ((splitextL f.data).1 ++ ".py".data)).data
        = (splitextL f.data).1 ++ ".py".data from rfl]
    rw [h2]
    rw [if_pos (Or.inr (Or.inr rfl))]
  case neg =>
    have h1 : srcStr f = f := by
      unfold srcStr
      rw [if_neg hext]
    rw [h1]
    exact h1

/-- A list with no occurrence of a character fails `hasChar`. -/
theorem hasChar_eq_false_of_rfindIdx_none (c : Char) (l : List Char)
    (h : rfindIdx c l = none) : hasChar c l = false := by
  induction l with
  | nil => rfl
  | cons x xs ih =>
    simp only [rfindIdx] at h
    by_cases hxc : x = c
    · cases hx : rfindIdx c xs with
      | some k => rw [hx] at h; simp at h
      | none => rw [hx] at h; simp [hxc] at h
    · cases hx : rfindIdx c xs with
      | some k => rw [hx] at h; simp at h
      | none =>
        simp only [hasChar, if_neg hxc]
        exact ih hx

/-- A successful `rfindIdx` means the character occurs. -/
theorem hasChar_true_of_rfindIdx_some (c : Char) (l : List Char) (k : Nat)
    (h : rfindIdx c l = some k) : hasChar c l = true := by
  induction l generalizing k with
  | nil => exact Option.noConfusion h
  | cons x xs ih =>
    simp only [rfindIdx] at h
    simp only [hasChar]
    by_cases hxc : x = c
    · rw [if_pos hxc]
    · rw [if_neg hxc]
      cases hx : rfindIdx c xs with
      | some j => exact ih j hx
      | none => rw [hx] at h; simp [hxc] at h

/-- Stripping trailing copies of a character keeps any other character. -/
theorem rstrip_ne_nil (c : Char) (l : List Char)
    (h : l.any (fun x => x ≠ c) = true) : rstrip c l ≠ [] := by
  unfold rstrip
  intro hcon
  rw [List.reverse_eq_nil_iff, List.dropWhile_eq_nil_iff] at hcon
  simp only [List.any_eq_true, decide_eq_true_eq] at h
  obtain ⟨x, hx, hxc⟩ := h
  have hxe := hcon x (List.mem_reverse.mpr hx)
  simp only [decide_eq_true_eq] at hxe
  exact hxc hxe

/-- When the path contains a separator, posixpath.split keeps a non-empty
head. -/
theorem ospathSplit_head_ne (p : String) (k : Nat)
    (hx : rfindIdx '/' p.data = some k) :
    (ospathSplit p).1 ≠ "" := by
  have hkl : k < p.data.length := rfindIdx_lt '/' p.data k hx
  have hP : rfindP '/' p.data = k + 1 := by simp [rfindP, hx]
  have hhead : p.data.take (k + 1) ≠ [] := by
    have : (p.data.take (k + 1)).length = k + 1 := by
      rw [List.length_take]
      omega
    intro hcon
    rw [hcon] at this
    simp at this
  show String.mk (splitAtP p.data (rfindP '/' p.data)).1 ≠ ""
  rw [hP]
  unfold splitAtP
  by_cases hany : (p.data.take (k + 1)).any (fun c => c ≠ '/') = true
  · rw [if_pos ⟨hhead, hany⟩]
    intro hcon
    exact rstrip_ne_nil '/' (p.data.take (k + 1)) hany (by
      have := congrArg String.data hcon
      simpa using this)
  · rw [if_neg (fun hand => hany hand.2)]
    intro hcon
    exact hhead (by
      have := congrArg String.data hcon
      simpa using this)

/-- Python truthiness of `os.path.dirname(name)` agrees with "contains a
directory separator". -/
theorem dirname_nonempty_eq (p : String) :
    decide ((ospathSplit p).1 ≠ "") = hasChar '/' p.data := by
  cases hx : rfindIdx '/' p.data with
  | none =>
    rw [hasChar_eq_false_of_rfindIdx_none '/' p.data hx]
    have h1 : (ospathSplit p).1 = "" := by
      show String.mk (splitAtP p.data (rfindP '/' p.data)).1 = ""
      rw [show rfindP '/' p.data = 0 from by simp [rfindP, hx]]
      rfl
    rw [h1]
    rfl
  | some k =>
    rw [hasChar_true_of_rfindIdx_some '/' p.data k hx]
    exact decide_eq_true (ospathSplit_head_ne p k hx)

/-- Claim C7 (amended): `file_like(name)` is true iff the name exists, or
contains a directory separator, or ends in `.py`, or the identifier test
fails on `splitext(name)[0]` — the extension-stripped name, not the name
itself. -/
theorem file_like_characterization (fs : FS) (name : String) :
    file_like fs name
      = (fs.pathExists name || hasChar '/' name.data || pyEndsWith name ".py"
          || !(identMatch (splitext name).1)) := by
  unfold file_like
  rw [dirname_nonempty_eq]

/-- Claim C7, counterexample to the claim as stated: `a.b-c` is not a legal
bare identifier (so the claim calls it file-like), but the code strips the
extension first and tests `a`, which is legal — `file_like` returns false. -/
theorem file_like_ident_counterexample :
    file_like fsEmpty "a.b-c" = false
    ∧ looksLikePathSpec fsEmpty "a.b-c" = true
    ∧ identOk "a.b-c".data = false
    ∧ splitext "a.b-c" = ("a", ".b-c")
    ∧ identMatch (splitext "a.b-c").1 = true :=
  ⟨by decide, by decide, by decide, by decide, by decide⟩

/-- Claim C10: `src` is idempotent: one application either yields a name
ending in `.py` (on which `src` rewrites to the same name) or returns its
argument unchanged, and `None` passes through, so `src(src(f)) = src(f)`
for every filename including `None`. -/
theorem src_idempotent (f : Option String) : src (src f) = src f := by
  cases f with
  | none => rfl
  | some s =>
    show some (srcStr (srcStr s)) = some (srcStr s)
    rw [srcStr_idem]

/-- One step of the package walk when the joined directory is a package. -/
theorem walkUp_pkg (fs : FS) (n : Nat) (path part : String) (hp : ¬ part = "")
    (h : ispackage fs (pjoin path part) = true) :
    walkUp fs (n + 1) path part
      = part :: walkUp fs n (ospathSplit path).1 (ospathSplit path).2 := by
  show (if part = "" then []
        else if ispackage fs (pjoin path part) then
          part :: walkUp fs n (ospathSplit path).1 (ospathSplit path).2
        else []) = _
  rw [if_neg hp, if_pos h]

/-- The package walk stops at the first non-package directory. -/
theorem walkUp_nonpkg (fs : FS) (n : Nat) (path part : String) (hp : ¬ part = "")
    (h : ispackage fs (pjoin path part) = false) :
    walkUp fs (n + 1) path part = [] := by
  show (if part = "" then []
        else if ispackage fs (pjoin path part) then
          part :: walkUp fs n (ospathSplit path).1 (ospathSplit path).2
        else []) = []
  rw [if_neg hp, if_neg (by rw [h]; exact Bool.false_ne_true)]

/-- The package walk stops on an empty component. -/
theorem walkUp_stop (fs : FS) (n : Nat) (path : String) :
    walkUp fs (n + 1) path "" = [] := rfl

/-- Claim C5: `getpackage` takes the stem as the leaf (contributing nothing
for `__init__`), then prepends ancestor directory names while they are
package directories, stopping without prepending at the first non-package
ancestor: for `pkg/subpkg/__init__.py` with both directories packages the
result is `pkg.subpkg`; when `pkg` is not a package the walk stops and the
result is `subpkg`; for `pkg/subpkg/mod.py` the leaf `mod` is appended,
giving `pkg.subpkg.mod`. -/
theorem getpackage_package_walk :
    (∀ fs : FS, ispackage fs "pkg/subpkg" = true → ispackage fs "pkg" = true →
      getpackage fs "pkg/subpkg/__init__.py" = some "pkg.subpkg")
    ∧ (∀ fs : FS, ispackage fs "pkg/subpkg" = true → ispackage fs "pkg" = false →
      getpackage fs "pkg/subpkg/__init__.py" = some "subpkg")
    ∧ (∀ fs : FS, ispackage fs "pkg/subpkg" = true → ispackage fs "pkg" = true →
      getpackage fs "pkg/subpkg/mod.py" = some "pkg.subpkg.mod") := by
  refine ⟨?_, ?_, ?_⟩
  · intro fs h1 h2
    have e0 : getpackage fs "pkg/subpkg/__init__.py"
        = some (joinWith "." ((walkUp fs (23 + 1) "pkg" "subpkg").reverse)) := rfl
    rw [e0, walkUp_pkg fs 23 "pkg" "subpkg" (by decide) h1]
    rw [show walkUp fs 23 (ospathSplit "pkg").1 (ospathSplit "pkg").2
        = walkUp fs (22 + 1) "" "pkg" from rfl]
    rw [walkUp_pkg fs 22 "" "pkg" (by decide) h2]
    rw [show walkUp fs 22 (ospathSplit "").1 (ospathSplit "").2
        = walkUp fs (21 + 1) "" "" from rfl]
    rw [walkUp_stop]
    rfl
  · intro fs h1 h2
    have e0 : getpackage fs "pkg/subpkg/__init__.py"
        = some (joinWith "." ((walkUp fs (23 + 1) "pkg" "subpkg").reverse)) := rfl
    rw [e0, walkUp_pkg fs 23 "pkg" "subpkg" (by decide) h1]
    rw [show walkUp fs 23 (ospathSplit "pkg").1 (ospathSplit "pkg").2
        = walkUp fs (22 + 1) "" "pkg" from rfl]
    rw [walkUp_nonpkg fs 22 "" "pkg" (by decide) h2]
    rfl
  · intro fs h1 h2
    have e0 : getpackage fs "pkg/subpkg/mod.py"
        = some (joinWith "."
            ((["mod"] ++ walkUp fs (18 + 1) "pkg" "subpkg").reverse)) := rfl
    rw [e0, walkUp_pkg fs 18 "pkg" "subpkg" (by decide) h1]
    rw [show walkUp fs 18 (ospathSplit "pkg").1 (ospathSplit "pkg").2
        = walkUp fs (17 + 1) "" "pkg" from rfl]
    rw [walkUp_pkg fs 17 "" "pkg" (by decide) h2]
    rw [show walkUp fs 17 (ospathSplit "").1 (ospathSplit "").2
        = walkUp fs (16 + 1) "" "" from rfl]
    rw [walkUp_stop]
    rfl

/-- Claim C5, witness: concrete filesystems realizing the three walk
configurations. -/
theorem getpackage_package_walk_witness :
    getpackage fs5 "pkg/subpkg/__init__.py" = some "pkg.subpkg"
    ∧ getpackage fs6 "pkg/subpkg/__init__.py" = some "subpkg"
    ∧ getpackage fs5 "pkg/subpkg/mod.py" = some "pkg.subpkg.mod" :=
  ⟨getpackage_package_walk.1 fs5 rfl rfl,
   getpackage_package_walk.2.1 fs6 rfl rfl,
   getpackage_package_walk.2.2 fs5 rfl rfl⟩

/-- Peeling an import attempt that fails with ImportError. -/
theorem importLoopRev_cons_none (imp : String → Option Obj) (x : String)
    (rest : List String) (h : imp (joinWith "." ((x :: rest).reverse)) = none) :
    importLoopRev imp (x :: rest) = importLoopRev imp rest := by
  show (match imp (joinWith "." ((x :: rest).reverse)) with
        | some m => Except.ok m
        | none => importLoopRev imp rest) = importLoopRev imp rest
  rw [h]

/-- A successful import ends the import loop. -/
theorem importLoopRev_cons_some (imp : String → Option Obj) (x : String)
    (rest : List String) (M : Obj)
    (h : imp (joinWith "." ((x :: rest).reverse)) = some M) :
    importLoopRev imp (x :: rest) = Except.ok M := by
  show (match imp (joinWith "." ((x :: rest).reverse)) with
        | some m => Except.ok m
        | none => importLoopRev imp rest) = Except.ok M
  rw [h]

/-- One successful attribute lookup in the walk. -/
theorem walkAttrs_cons_some (obj o : Obj) (p : String) (ps : List String)
    (h : getattrObj obj p = some o) :
    walkAttrs obj (p :: ps) = walkAttrs o ps := by
  show (match getattrObj obj p with
        | some o => walkAttrs o ps
        | none => Except.error (RErr.attributeError p)) = walkAttrs o ps
  rw [h]

/-- A missing attribute raises AttributeError carrying that segment. -/
theorem walkAttrs_cons_none (obj : Obj) (p : String) (ps : List String)
    (h : getattrObj obj p = none) :
    walkAttrs obj (p :: ps) = Except.error (RErr.attributeError p) := by
  show (match getattrObj obj p with
        | some o => walkAttrs o ps
        | none => Except.error (RErr.attributeError p))
      = Except.error (RErr.attributeError p)
  rw [h]

/-- Claim C6 (amended): `resolve_name` imports the longest importable
prefix of the dotted name (dropping the last component and retrying on
each ImportError) and then walks all but the first dotted component as
attribute lookups off the object `__import__` returned; a missing
attribute raises an AttributeError carrying the failing segment only (the
full original string is not part of the error). -/
theorem resolve_name_prefix_walk :
    (∀ (imp : String → Option Obj) (M : Obj),
      imp "pkg.mod.Class.method" = none → imp "pkg.mod.Class" = none →
      imp "pkg.mod" = some M →
      resolve_name imp "pkg.mod.Class.method" none
        = walkAttrs M ["mod", "Class", "method"])
    ∧ (∀ (imp : String → Option Obj) (M o : Obj),
      imp "pkg.mod.Class.method" = none → imp "pkg.mod.Class" = none →
      imp "pkg.mod" = some M →
      getattrObj M "mod" = some o → getattrObj o "Class" = none →
      resolve_name imp "pkg.mod.Class.method" none
        = Except.error (RErr.attributeError "Class")) := by
  constructor
  · intro imp M h1 h2 h3
    have e0 : resolve_name imp "pkg.mod.Class.method" none
        = (match importLoopRev imp ["method", "Class", "mod", "pkg"] with
           | Except.error e => Except.error e
           | Except.ok m => walkAttrs m ["mod", "Class", "method"]) := rfl
    rw [e0]
    rw [importLoopRev_cons_none imp "method" ["Class", "mod", "pkg"] h1]
    rw [importLoopRev_cons_none imp "Class" ["mod", "pkg"] h2]
    rw [importLoopRev_cons_some imp "mod" ["pkg"] M h3]
  · intro imp M o h1 h2 h3 h4 h5
    have e0 : resolve_name imp "pkg.mod.Class.method" none
        = (match importLoopRev imp ["method", "Class", "mod", "pkg"] with
           | Except.error e => Except.error e
           | Except.ok m => walkAttrs m ["mod", "Class", "method"]) := rfl
    rw [e0]
    rw [importLoopRev_cons_none imp "method" ["Class", "mod", "pkg"] h1]
    rw [importLoopRev_cons_none imp "Class" ["mod", "pkg"] h2]
    rw [importLoopRev_cons_some imp "mod" ["pkg"] M h3]
    show walkAttrs M ["mod", "Class", "method"] = _
    rw [walkAttrs_cons_some M o "mod" ["Class", "method"] h4]
    rw [walkAttrs_cons_none o "Class" ["method"] h5]

/-- Claim C6, witness: on the concrete world where only `pkg.mod` imports
and the attribute chain is intact, `resolve_name` walks `mod`, `Class`,
`method` off the imported top-level object and succeeds. -/
theorem resolve_name_prefix_walk_witness :
    resolve_name impFull "pkg.mod.Class.method" none
      = walkAttrs objPkgFull ["mod", "Class", "method"]
    ∧ resolve_name impFull "pkg.mod.Class.method" none = Except.ok (Obj.mk []) :=
  ⟨resolve_name_prefix_walk.1 impFull objPkgFull rfl rfl rfl, rfl⟩

/-- Claim C6, counterexample to the claim as stated: when `Class` is
missing, the error raised is the plain AttributeError carrying only the
failing segment `Class`; the full original string
`pkg.mod.Class.method` appears nowhere in it. -/
theorem resolve_name_error_counterexample :
    resolve_name impNoClass "pkg.mod.Class.method" none
      = Except.error (RErr.attributeError "Class")
    ∧ "Class" ≠ "pkg.mod.Class.method"
    ∧ listSub "pkg.mod.Class.method".data "Class".data = false :=
  ⟨rfl, by decide, by decide⟩

/-- A successful `finishSplit` yields a non-empty field provided the
location is non-empty or a callable was split off. -/
theorem finishSplit_field (fs : FS) (fm : String) (fn : Option String)
    (r : Option String × Option String × Option String)
    (hside : fm ≠ "" ∨ fn.isSome = true)
    (h : finishSplit fs fm fn = Except.ok r) : someField r = true := by
  unfold finishSplit at h
  by_cases hfm : fm ≠ ""
  · rw [if_pos hfm] at h
    by_cases hfl : file_like fs fm = true
    · rw [if_pos hfl] at h
      injection h with h
      subst h
      rfl
    · rw [if_neg hfl] at h
      injection h with h
      subst h
      rfl
  · rw [if_neg hfm] at h
    injection h with h
    subst h
    cases hside with
    | inl hl => exact absurd hl hfm
    | inr hr => simp [someField, hr]

/-- A string containing a colon is not empty. -/
theorem ne_empty_of_hasChar (u : String) (hu : hasChar ':' u.data = true) :
    u ≠ "" := by
  intro hcon
  subst hcon
  simp [hasChar] at hu

/-- Joining two strings with the path separator never gives the empty
string. -/
theorem joinWith_sep_ne_empty (a b : String) : joinWith "/" [a, b] ≠ "" := by
  intro hcon
  have hd := congrArg String.data hcon
  rw [show (joinWith "/" [a, b]).data = (a.data ++ ['/']) ++ b.data from rfl] at hd
  simp at hd

/-- Claim C8 (amended): every triple returned without error by
`split_test_name` has a non-None field; the same holds of `test_address`
for entities whose module / function / class nodes carry at least one
identifying attribute and whose self-described addresses are non-empty
(`addrOk`) — without that proviso a bare module with neither `__file__`
nor `__name__` yields the all-None triple. -/
theorem address_some_field :
    (∀ (fs : FS) (t : String) (r : Option String × Option String × Option String),
      split_test_name fs t = Except.ok r → someField r = true)
    ∧ (∀ (cwd : String) (reg : String → Option (Option String)) (e : PyEntity)
      (r : Option String × Option String × Option String),
      addrOk e = true → test_address cwd reg e = Except.ok r → someField r = true) := by
  constructor
  · intro fs t r h
    simp only [split_test_name] at h
    split at h
    · -- specifier contains a colon
      rename_i hc
      split at h
      · -- no path-separator head
        split at h
        · -- exactly one colon
          split at h
          · exact finishSplit_field fs t none r (Or.inl (ne_empty_of_hasChar t hc)) h
          · exact finishSplit_field fs _ (some _) r (Or.inr rfl) h
        · -- several colons
          split at h
          · exact finishSplit_field fs _ (some _) r (Or.inr rfl) h
          · exact Except.noConfusion h
      · -- head present
        split at h
        · -- empty tail
          exact finishSplit_field fs t none r (Or.inl (ne_empty_of_hasChar t hc)) h
        · split at h
          · -- colon in the tail
            split at h
            · exact finishSplit_field fs _ (some _) r (Or.inr rfl) h
            · exact Except.noConfusion h
          · -- no colon in the tail
            exact finishSplit_field fs _ none r
              (Or.inl (joinWith_sep_ne_empty (ospathSplit t).1 (ospathSplit t).2)) h
    · -- no colon at all
      split at h
      · injection h with h
        subst h
        rfl
      · injection h with h
        subst h
        rfl
  · intro cwd reg e
    induction e with
    | withAddress a =>
      intro r hok heq
      injection heq with heq
      subst heq
      exact hok
    | module f n =>
      intro r hok heq
      injection heq with heq
      subst heq
      simpa [someField, addrOk] using hok
    | function m n =>
      intro r hok heq
      cases m with
      | none =>
        injection heq with heq
        subst heq
        simpa [someField, addrOk] using hok
      | some mm =>
        cases hreg : reg mm with
        | none =>
          rw [show test_address cwd reg (PyEntity.function (some mm) n)
              = funcOrClassAddress cwd reg (some mm) n from rfl] at heq
          simp only [funcOrClassAddress, hreg] at heq
          exact Except.noConfusion heq
        | some fo =>
          rw [show test_address cwd reg (PyEntity.function (some mm) n)
              = funcOrClassAddress cwd reg (some mm) n from rfl] at heq
          simp only [funcOrClassAddress, hreg, Except.ok.injEq] at heq
          subst heq
          simp [someField]
    | cls m n =>
      intro r hok heq
      cases m with
      | none =>
        injection heq with heq
        subst heq
        simpa [someField, addrOk] using hok
      | some mm =>
        cases hreg : reg mm with
        | none =>
          rw [show test_address cwd reg (PyEntity.cls (some mm) n)
              = funcOrClassAddress cwd reg (some mm) n from rfl] at heq
          simp only [funcOrClassAddress, hreg] at heq
          exact Except.noConfusion heq
        | some fo =>
          rw [show test_address cwd reg (PyEntity.cls (some mm) n)
              = funcOrClassAddress cwd reg (some mm) n from rfl] at heq
          simp only [funcOrClassAddress, hreg, Except.ok.injEq] at heq
          subst heq
          simp [someField]
    | instanceOf c ih =>
      intro r hok heq
      exact ih r hok heq
    | method c name ih =>
      intro r hok heq
      rw [show test_address cwd reg (PyEntity.method c name)
          = (match test_address cwd reg c with
             | Except.error e => Except.error e
             | Except.ok ca => Except.ok (ca.1, ca.2.1, some (pyFormat2 ca.2.2 name)))
          from rfl] at heq
      cases hca : test_address cwd reg c with
      | error e =>
        simp only [hca] at heq
        exact Except.noConfusion heq
      | ok ca =>
        simp only [hca, Except.ok.injEq] at heq
        subst heq
        simp [someField]
    | functionTestCase f ih =>
      intro r hok heq
      exact ih r hok heq
    | testCase c mname ih =>
      intro r hok heq
      rw [show test_address cwd reg (PyEntity.testCase c mname)
          = (match test_address cwd reg c with
             | Except.error e => Except.error e
             | Except.ok ca => Except.ok (ca.1, ca.2.1, some (pyFormat2 ca.2.2 mname)))
          from rfl] at heq
      cases hca : test_address cwd reg c with
      | error e =>
        simp only [hca] at heq
        exact Except.noConfusion heq
      | ok ca =>
        simp only [hca, Except.ok.injEq] at heq
        subst heq
        simp [someField]
    | other tn =>
      intro r hok heq
      exact Except.noConfusion heq

/-- Claim C8, witness: instances of both halves of the invariant on
concrete inputs. -/
theorem address_some_field_witness :
    someField (some "foo/bar.py", none, some "test_func") = true
    ∧ someField (some "/x.py", some "m", some "f") = true := by
  constructor
  · exact address_some_field.1 fsEmpty "foo/bar.py:test_func"
      (some "foo/bar.py", none, some "test_func") rfl
  · exact address_some_field.2 "/" (fun s => if s = "m" then some (some "/x.py") else none)
      (PyEntity.function (some "m") (some "f"))
      (some "/x.py", some "m", some "f") rfl rfl

/-- Claim C8, counterexample to the claim as stated: a module object with
neither `__file__` nor `__name__` is addressed without error, and the
result is the all-None triple. -/
theorem test_address_all_none_counterexample :
    test_address "/" (fun _ => none) (PyEntity.module none none)
      = Except.ok (none, none, none)
    ∧ someField (none, none, none) = false :=
  ⟨rfl, rfl⟩

end Nose
